import Mathlib

/-!
Verification development for the tap-universal-file extractor
(`tap_universal_file`): a shallow embedding in Lean 4 of the file-discovery,
row-decoding and schema-inference pipeline, together with theorems about it.

Conventions of the embedding:
  * `FilesystemManager.get_files` (src/tap_universal_file/files.py) is embedded
    as a pure function from the filesystem listing to the list of selected
    files.  The fsspec listing is a list of `FileInfo` records; the configured
    `file_regex` is abstracted as a Boolean matcher `String → Bool`
    (representing `fun s => (re.match pattern s).isSome`), wrapped in `Option`
    to model presence/absence of the `file_regex` key in the configuration.
  * Timestamps (`last_modified`, and the parsed
    `starting_replication_key_value`) are modelled as `Int`; the code compares
    timezone-aware `datetime` values, a total linear order, so an integer
    timestamp is a faithful model of the comparisons the code performs.  The
    cursor is modelled after `datetime.strptime` has parsed it.
  * A Python generator that can raise is modelled as `Except String`; the
    message strings reproduce the source messages (with the f-string holes
    filled by interpolation).
  * Python `sorted` is stable; it is modelled by `List.mergeSort`, which is
    also stable.
-/

/-- A filesystem entry as returned by `fsspec`'s `find`/`info`: its `name` is
the full (backend-native) path, `ftype` is the entry type string, `size` its
byte size, and `lastModified` the timestamp computed by
`FilesystemManager._get_last_modified`. -/
structure FileInfo where
  name : String
  ftype : String
  size : Nat
  lastModified : Int
deriving DecidableEq, Repr

/-- The predicate of the filter loop in `FilesystemManager.get_files`
(src/tap_universal_file/files.py lines 100-113): an entry is kept unless it is
a directory, is empty, or a `file_regex` is configured and `re.match` of the
pattern against `file["name"]` fails.  `nameMatches` abstracts
`fun s => (re.match (config.file_regex) s).isSome`. -/
def keepsPreFilter (nameMatches : Option (String → Bool)) (f : FileInfo) : Bool :=
  !(f.ftype == "directory" || f.size == 0 ||
    (match nameMatches with
     | some m => !(m f.name)
     | none => false))

/-- The entries surviving the directory/zero-size/pattern filter, in listing
order. -/
def preFilter (nameMatches : Option (String → Bool)) (listing : List FileInfo) :
    List FileInfo :=
  listing.filter (keepsPreFilter nameMatches)

/-- The Boolean key comparison of `sorted(file_dict_list, key=lambda k:
k["last_modified"])`. -/
def lmLE (a b : FileInfo) : Bool :=
  decide (a.lastModified ≤ b.lastModified)

/-- `sorted(file_dict_list, key=lambda k: k["last_modified"])`: Python sorted
is stable ascending; modelled by the stable `List.mergeSort`. -/
def sortByLastModified (files : List FileInfo) : List FileInfo :=
  files.mergeSort lmLE

/-- The cursor test of the final loop of `get_files`: an entry is yielded when
no `starting_replication_key_value` is present or when its `last_modified` is
greater than or equal to the parsed cursor. -/
def passesCursor (cursor : Option Int) (f : FileInfo) : Bool :=
  match cursor with
  | none => true
  | some c => decide (c ≤ f.lastModified)

/-- The entries surviving the cursor filter, in order. -/
def cursorFilter (cursor : Option Int) (files : List FileInfo) : List FileInfo :=
  files.filter (passesCursor cursor)

/-- The `RuntimeError` message raised by `get_files` when the pre-cursor
filtering finds nothing. -/
def noFilesMsg : String :=
  "No files found. Choose a different `file_path` or try a more lenient `file_regex`."

/-- The warning logged by `get_files` when files were found but none passed the
cursor filter. -/
def noneSyncedMsg : String :=
  "Current state precludes files being synced as none have been modified since state was last updated."

/-- Embedding of `FilesystemManager.get_files`
(src/tap_universal_file/files.py lines 78-147).  Given the matcher for the
configured `file_regex` (if any), the parsed cursor (if any) and the raw
listing, it returns either the `RuntimeError` message (when `none_found`
remains true, i.e. the pre-cursor filters keep nothing) or the yielded file
list paired with a flag that is true exactly when the `none_synced` warning is
logged.  Note the generator yields nothing before raising in the error case,
so the `Except` model is faithful. -/
def get_files (nameMatches : Option (String → Bool)) (cursor : Option Int)
    (listing : List FileInfo) : Except String (List FileInfo × Bool) :=
  let pre := preFilter nameMatches listing
  let post := cursorFilter cursor (sortByLastModified pre)
  if pre.isEmpty then .error noFilesMsg
  else .ok (post, post.isEmpty)

/-- Python's `pathlib.Path(name).name` for forward-slash paths: the part of the
path after the last separator.  Used only to state the spec's basename-matching
claim; `get_files` itself never takes a basename. -/
def basename (s : String) : String :=
  ⟨s.data.foldl (fun acc c => if c == '/' then [] else acc ++ [c]) []⟩

lemma lmLE_trans : ∀ a b c : FileInfo,
    lmLE a b = true → lmLE b c = true → lmLE a c = true := by
  intro a b c hab hbc
  simp only [lmLE, decide_eq_true_eq] at *
  exact le_trans hab hbc

lemma lmLE_total : ∀ a b : FileInfo, (lmLE a b || lmLE b a) = true := by
  intro a b
  simp only [lmLE, Bool.or_eq_true, decide_eq_true_eq]
  exact le_total a.lastModified b.lastModified

lemma keepsPreFilter_iff (m : String → Bool) (f : FileInfo) :
    keepsPreFilter (some m) f = true ↔
      f.ftype ≠ "directory" ∧ f.size ≠ 0 ∧ m f.name = true := by
  simp only [keepsPreFilter, Bool.not_eq_true', Bool.or_eq_false_iff,
    beq_eq_false_iff_ne, ne_eq, Bool.not_eq_true]
  constructor
  · rintro ⟨⟨h1, h2⟩, h3⟩
    refine ⟨h1, by simpa using h2, by simpa using h3⟩
  · rintro ⟨h1, h2, h3⟩
    exact ⟨⟨h1, by simpa using h2⟩, by simpa using h3⟩

/-- When `get_files` succeeds, the pre-cursor filter kept something and the
output is the cursor-filtered sorted pre-filtered listing. -/
lemma get_files_ok {nm : Option (String → Bool)} {cursor : Option Int}
    {listing out : List FileInfo} {w : Bool}
    (h : get_files nm cursor listing = .ok (out, w)) :
    preFilter nm listing ≠ [] ∧
      out = cursorFilter cursor (sortByLastModified (preFilter nm listing)) := by
  unfold get_files at h
  by_cases hp : (preFilter nm listing).isEmpty
  · simp [hp] at h
  · simp [hp] at h
    exact ⟨by simpa [List.isEmpty_iff] using hp, h.1.symm⟩

/-- Stability of the sort step: for each timestamp `t`, the entries of the
sorted list carrying `t` appear exactly as they do in the input. -/
lemma sortByLastModified_stable (l : List FileInfo) (t : Int) :
    (sortByLastModified l).filter (fun f => f.lastModified == t) =
      l.filter (fun f => f.lastModified == t) := by
  set p : FileInfo → Bool := fun f => f.lastModified == t with hp
  have hpair : (l.filter p).Pairwise (fun a b => lmLE a b = true) := by
    apply List.pairwise_of_forall_mem_list
    intro a ha b hb
    have ha' := (List.mem_filter.mp ha).2
    have hb' := (List.mem_filter.mp hb).2
    simp only [hp, beq_iff_eq] at ha' hb'
    simp [lmLE, ha', hb']
  have hsub : (l.filter p).Sublist (sortByLastModified l) :=
    List.sublist_mergeSort lmLE_trans lmLE_total hpair (List.filter_sublist l)
  have hpp : (fun a => p a && p a) = p := by
    funext a
    cases p a <;> simp
  have hsub2 : (l.filter p).Sublist ((sortByLastModified l).filter p) := by
    have := List.Sublist.filter p hsub
    rwa [List.filter_filter, hpp] at this
  have hperm : ((sortByLastModified l).filter p).Perm (l.filter p) :=
    List.Perm.filter p (List.mergeSort_perm l lmLE)
  exact (hsub2.eq_of_length hperm.length_eq.symm).symm

/-- C1, amended. The spec claims the `file_regex` is matched against each
entry's basename; the code matches it against the entry's full `name`
(the full path returned by the filesystem listing).  Amended statement: file
selection discards exactly the non-directory non-empty entries whose full
name fails to match the pattern, and every selected file's full name matches
the pattern. -/
theorem get_files_name_pattern_matches_full_name
    (m : String → Bool) (cursor : Option Int)
    (listing out : List FileInfo) (w : Bool)
    (h : get_files (some m) cursor listing = .ok (out, w)) :
    (∀ f ∈ out, m f.name = true) ∧
      (∀ f, f ∈ preFilter (some m) listing ↔
        f ∈ listing ∧ f.ftype ≠ "directory" ∧ f.size ≠ 0 ∧ m f.name = true) := by
  obtain ⟨-, hout⟩ := get_files_ok h
  constructor
  · intro f hf
    rw [hout] at hf
    have hf1 : f ∈ sortByLastModified (preFilter (some m) listing) :=
      (List.mem_filter.mp hf).1
    have hf2 : f ∈ preFilter (some m) listing :=
      List.mem_mergeSort.mp hf1
    exact ((keepsPreFilter_iff m f).mp (List.mem_filter.mp hf2).2).2.2
  · intro f
    rw [preFilter, List.mem_filter, keepsPreFilter_iff]

/-- C1 counterexample. An entry whose basename matches the configured pattern
is nevertheless discarded, because the code applies `re.match` to the full
path: with the matcher `(· == "data.csv")` and the single candidate file
`dir/data.csv` (a non-directory, non-empty file), the basename matches, yet
discovery finds no file at all and raises the no-files-found error. -/
theorem get_files_basename_claim_fails :
    (fun s => s == "data.csv") (basename "dir/data.csv") = true ∧
      (FileInfo.mk "dir/data.csv" "file" 5 0).ftype ≠ "directory" ∧
      (FileInfo.mk "dir/data.csv" "file" 5 0).size ≠ 0 ∧
      get_files (some (fun s => s == "data.csv")) none
        [FileInfo.mk "dir/data.csv" "file" 5 0] = .error noFilesMsg :=
  ⟨by decide, by decide, by decide, by rfl⟩

/-- Witness for the amended C1 theorem at a concrete input. -/
theorem get_files_name_pattern_witness :
    (∀ f ∈ [FileInfo.mk "a.csv" "file" 3 5],
      (fun s => s == "a.csv") f.name = true) ∧
      (∀ f, f ∈ preFilter (some (fun s => s == "a.csv"))
          [FileInfo.mk "a.csv" "file" 3 5] ↔
        f ∈ [FileInfo.mk "a.csv" "file" 3 5] ∧ f.ftype ≠ "directory" ∧
          f.size ≠ 0 ∧ (fun s => s == "a.csv") f.name = true) :=
  get_files_name_pattern_matches_full_name (fun s => s == "a.csv") none
    [FileInfo.mk "a.csv" "file" 3 5] [FileInfo.mk "a.csv" "file" 3 5] false
    (by simp [get_files, preFilter, keepsPreFilter, sortByLastModified,
      List.mergeSort, cursorFilter, passesCursor])

/-- C2: with a cursor configured, file selection keeps exactly the (sorted,
pre-filtered) entries whose `lastModified` is greater than or equal to the
cursor; entries strictly older are discarded and entries exactly at the
cursor are included. -/
theorem get_files_cursor_boundary
    (nm : Option (String → Bool)) (c : Int)
    (listing out : List FileInfo) (w : Bool)
    (h : get_files nm (some c) listing = .ok (out, w)) :
    ∀ f, f ∈ out ↔
      f ∈ sortByLastModified (preFilter nm listing) ∧ ¬(f.lastModified < c) := by
  obtain ⟨-, hout⟩ := get_files_ok h
  intro f
  rw [hout, cursorFilter, List.mem_filter]
  simp [passesCursor, not_lt]

/-- Witness for C2: two files at timestamps 1 and 2 with cursor 2; the file at
the boundary is kept, the strictly older one is discarded. -/
theorem get_files_cursor_boundary_witness :
    (FileInfo.mk "b" "file" 1 2 ∈ [FileInfo.mk "b" "file" 1 2] ↔
      FileInfo.mk "b" "file" 1 2 ∈ sortByLastModified (preFilter none
        [FileInfo.mk "a" "file" 1 1, FileInfo.mk "b" "file" 1 2]) ∧
        ¬((FileInfo.mk "b" "file" 1 2).lastModified < 2)) ∧
    (FileInfo.mk "a" "file" 1 1 ∈ [FileInfo.mk "b" "file" 1 2] ↔
      FileInfo.mk "a" "file" 1 1 ∈ sortByLastModified (preFilter none
        [FileInfo.mk "a" "file" 1 1, FileInfo.mk "b" "file" 1 2]) ∧
        ¬((FileInfo.mk "a" "file" 1 1).lastModified < 2)) :=
  ⟨get_files_cursor_boundary none 2
      [FileInfo.mk "a" "file" 1 1, FileInfo.mk "b" "file" 1 2]
      [FileInfo.mk "b" "file" 1 2] false
      (by simp [get_files, preFilter, keepsPreFilter, sortByLastModified,
        List.mergeSort, List.merge, cursorFilter, passesCursor, lmLE])
      (FileInfo.mk "b" "file" 1 2),
    get_files_cursor_boundary none 2
      [FileInfo.mk "a" "file" 1 1, FileInfo.mk "b" "file" 1 2]
      [FileInfo.mk "b" "file" 1 2] false
      (by simp [get_files, preFilter, keepsPreFilter, sortByLastModified,
        List.mergeSort, List.merge, cursorFilter, passesCursor, lmLE])
      (FileInfo.mk "a" "file" 1 1)⟩

/-- C3: the selected file sequence is sorted ascending by `lastModified`, and
the sort is stable: for each timestamp, the selected entries carrying it
appear in their original listing order (the pre-filtered listing filtered by
that timestamp and the cursor test). -/
theorem get_files_sorted_and_stable
    (nm : Option (String → Bool)) (cursor : Option Int)
    (listing out : List FileInfo) (w : Bool)
    (h : get_files nm cursor listing = .ok (out, w)) :
    List.Pairwise (fun a b => a.lastModified ≤ b.lastModified) out ∧
      ∀ t : Int, out.filter (fun f => f.lastModified == t) =
        (preFilter nm listing).filter
          (fun f => (f.lastModified == t) && passesCursor cursor f) := by
  obtain ⟨-, hout⟩ := get_files_ok h
  constructor
  · rw [hout]
    apply List.Pairwise.filter
    have := List.sorted_mergeSort lmLE_trans lmLE_total (preFilter nm listing)
    exact this.imp (by intro a b hab; simpa [lmLE] using hab)
  · intro t
    have hcomm : (fun f : FileInfo => (f.lastModified == t) && passesCursor cursor f)
        = (fun f => passesCursor cursor f && (f.lastModified == t)) := by
      funext f
      exact Bool.and_comm _ _
    rw [hout]
    calc (cursorFilter cursor (sortByLastModified (preFilter nm listing))).filter
          (fun f => f.lastModified == t)
        = (sortByLastModified (preFilter nm listing)).filter
            (fun f => (f.lastModified == t) && passesCursor cursor f) :=
          List.filter_filter _ _
      _ = ((sortByLastModified (preFilter nm listing)).filter
            (fun f => f.lastModified == t)).filter (passesCursor cursor) := by
          rw [hcomm]
          exact (List.filter_filter _ _).symm
      _ = ((preFilter nm listing).filter
            (fun f => f.lastModified == t)).filter (passesCursor cursor) := by
          rw [sortByLastModified_stable]
      _ = (preFilter nm listing).filter
            (fun f => (f.lastModified == t) && passesCursor cursor f) := by
          rw [List.filter_filter, ← hcomm]

/-- Witness for C3: two distinct files with equal timestamps keep their
listing order in the output. -/
theorem get_files_sorted_and_stable_witness :
    List.Pairwise (fun a b => a.lastModified ≤ b.lastModified)
      [FileInfo.mk "b" "file" 1 5, FileInfo.mk "a" "file" 1 5] ∧
      ∀ t : Int,
        ([FileInfo.mk "b" "file" 1 5, FileInfo.mk "a" "file" 1 5].filter
          (fun f => f.lastModified == t)) =
        (preFilter none
            [FileInfo.mk "b" "file" 1 5, FileInfo.mk "a" "file" 1 5]).filter
          (fun f => (f.lastModified == t) && passesCursor none f) :=
  get_files_sorted_and_stable none none
    [FileInfo.mk "b" "file" 1 5, FileInfo.mk "a" "file" 1 5]
    [FileInfo.mk "b" "file" 1 5, FileInfo.mk "a" "file" 1 5] false
    (by simp [get_files, preFilter, keepsPreFilter, sortByLastModified,
      List.mergeSort, List.merge, cursorFilter, passesCursor, lmLE])

/-- C4: discovery raises the fatal no-files-found error exactly when the
pre-cursor filtering keeps nothing; when files survive the pre-cursor filters
but the cursor filter removes all of them, the run succeeds with zero files
and the nothing-new warning flag set. -/
theorem get_files_error_iff_prefilter_empty
    (nm : Option (String → Bool)) (cursor : Option Int) (listing : List FileInfo) :
    (get_files nm cursor listing = .error noFilesMsg ↔ preFilter nm listing = []) ∧
      (preFilter nm listing ≠ [] →
        cursorFilter cursor (sortByLastModified (preFilter nm listing)) = [] →
        get_files nm cursor listing = .ok ([], true)) := by
  constructor
  · unfold get_files
    by_cases hp : (preFilter nm listing).isEmpty
    · simp [hp, List.isEmpty_iff.mp hp]
    · simp [hp]
      simpa [List.isEmpty_iff] using hp
  · intro hne hpost
    unfold get_files
    simp [hpost, List.isEmpty_iff, hne]

/-- Witness for C4: one file at timestamp 1 with cursor 5 survives the
pre-cursor filters, is removed by the cursor filter, and the run succeeds
with zero files and the warning flag. -/
theorem get_files_error_iff_prefilter_empty_witness :
    get_files none (some 5) [FileInfo.mk "a" "file" 1 1] = .ok ([], true) :=
  (get_files_error_iff_prefilter_empty none (some 5)
      [FileInfo.mk "a" "file" 1 1]).2
    (by decide)
    (by simp [preFilter, keepsPreFilter, sortByLastModified, List.mergeSort,
      cursorFilter, passesCursor])

/-!
Python dictionaries.  `DelimitedStream.ModifiedDictReader.__next__` and the
`get_properties` methods build Python dicts by repeated assignment/`update`;
a Python dict keeps the insertion position of a key and a later assignment
overwrites its value in place.  `pyUpdate` models one assignment `d[k] = v`
and `pyLookup` models `d[k]` (as an `Option`).
-/

/-- One Python dict assignment `d[k] = v`: overwrite in place when the key is
present, append otherwise. -/
def pyUpdate {κ ν : Type} [BEq κ] (d : List (κ × ν)) (k : κ) (v : ν) :
    List (κ × ν) :=
  if d.any (fun p => p.1 == k) then
    d.map (fun p => if p.1 == k then (k, v) else p)
  else
    d ++ [(k, v)]

/-- Python dict lookup `d[k]`, as an `Option`. -/
def pyLookup {κ ν : Type} [BEq κ] (k : κ) (d : List (κ × ν)) : Option ν :=
  (d.find? (fun p => p.1 == k)).map (fun p => p.2)

lemma pyUpdate_cons_of_ne {κ ν : Type} [BEq κ] (a : κ × ν) (t : List (κ × ν))
    (k : κ) (v : ν) (h : (a.1 == k) = false) :
    pyUpdate (a :: t) k v = a :: pyUpdate t k v := by
  unfold pyUpdate
  simp only [List.any_cons, h, Bool.false_or]
  by_cases ht : t.any (fun p => p.1 == k)
  · simp [ht, h]
  · simp [ht, h]

lemma pyUpdate_cons_of_eq {κ ν : Type} [BEq κ] (a : κ × ν) (t : List (κ × ν))
    (k : κ) (v : ν) (h : (a.1 == k) = true) :
    pyUpdate (a :: t) k v =
      (k, v) :: t.map (fun p => if p.1 == k then (k, v) else p) := by
  unfold pyUpdate
  simp [List.any_cons, h]

lemma pyLookup_cons_of_eq {κ ν : Type} [BEq κ] (a : κ × ν) (t : List (κ × ν))
    (k' : κ) (h : (a.1 == k') = true) :
    pyLookup k' (a :: t) = some a.2 := by
  unfold pyLookup
  rw [List.find?_cons_of_pos t h]
  rfl

lemma pyLookup_cons_of_ne {κ ν : Type} [BEq κ] (a : κ × ν) (t : List (κ × ν))
    (k' : κ) (h : (a.1 == k') = false) :
    pyLookup k' (a :: t) = pyLookup k' t := by
  unfold pyLookup
  rw [List.find?_cons_of_neg t (by simp [h])]

lemma find?_map_overwrite {κ ν : Type} [BEq κ] [LawfulBEq κ]
    (t : List (κ × ν)) (k k' : κ) (v : ν) (hne : (k == k') = false) :
    List.find? (fun p => p.1 == k')
        (t.map (fun p => if p.1 == k then (k, v) else p)) =
      List.find? (fun p => p.1 == k') t := by
  induction t with
  | nil => rfl
  | cons b u ih =>
    by_cases hbk : (b.1 == k) = true
    · have hb' : (b.1 == k') = false := by
        rw [eq_of_beq hbk]
        exact hne
      rw [List.map_cons, if_pos hbk, List.find?_cons_of_neg _ (by simp [hne]),
        List.find?_cons_of_neg _ (by simp [hb']), ih]
    · rw [List.map_cons, if_neg hbk]
      cases hbk' : (b.1 == k')
      · rw [List.find?_cons_of_neg _ (by simp [hbk']),
          List.find?_cons_of_neg _ (by simp [hbk']), ih]
      · rw [@List.find?_cons_of_pos _ (fun p => p.1 == k') b
            (u.map (fun p => if p.1 == k then (k, v) else p)) hbk',
          @List.find?_cons_of_pos _ (fun p => p.1 == k') b u hbk']

lemma pyLookup_pyUpdate_self {κ ν : Type} [BEq κ] [LawfulBEq κ]
    (d : List (κ × ν)) (k : κ) (v : ν) :
    pyLookup k (pyUpdate d k v) = some v := by
  induction d with
  | nil =>
    unfold pyUpdate pyLookup
    simp
  | cons a t ih =>
    by_cases hk : (a.1 == k) = true
    · rw [pyUpdate_cons_of_eq a t k v hk]
      exact pyLookup_cons_of_eq _ _ _ (beq_self_eq_true k)
    · rw [pyUpdate_cons_of_ne a t k v (by simpa using hk),
        pyLookup_cons_of_ne _ _ _ (by simpa using hk)]
      exact ih

lemma pyLookup_pyUpdate_other {κ ν : Type} [BEq κ] [LawfulBEq κ]
    (d : List (κ × ν)) (k k' : κ) (v : ν) (hne : (k == k') = false) :
    pyLookup k' (pyUpdate d k v) = pyLookup k' d := by
  induction d with
  | nil =>
    unfold pyUpdate pyLookup
    simp [hne]
  | cons a t ih =>
    by_cases hk : (a.1 == k) = true
    · have ha' : (a.1 == k') = false := by
        rw [eq_of_beq hk]
        exact hne
      rw [pyUpdate_cons_of_eq a t k v hk,
        pyLookup_cons_of_ne _ _ _ (by simpa using hne),
        pyLookup_cons_of_ne a t k' ha']
      unfold pyLookup
      rw [find?_map_overwrite t k k' v hne]
    · rw [pyUpdate_cons_of_ne a t k v (by simpa using hk)]
      cases ha' : (a.1 == k')
      · rw [pyLookup_cons_of_ne _ _ _ ha', pyLookup_cons_of_ne a t k' ha']
        exact ih
      · rw [pyLookup_cons_of_eq _ _ _ ha', pyLookup_cons_of_eq a t k' ha']

lemma pyLookup_foldl_insert_not_mem {κ ν : Type} [BEq κ] [LawfulBEq κ]
    (L : List κ) (d : List (κ × ν)) (v : ν) (k : κ) (hk : k ∉ L) :
    pyLookup k (L.foldl (fun d x => pyUpdate d x v) d) = pyLookup k d := by
  induction L generalizing d with
  | nil => rfl
  | cons a t ih =>
    rw [List.foldl_cons, ih _ (fun h => hk (List.mem_cons_of_mem a h))]
    have hak : (a == k) = false :=
      beq_eq_false_iff_ne.mpr
        (fun h => hk (by rw [← h]; exact List.mem_cons_self a t))
    exact pyLookup_pyUpdate_other d a k v hak

lemma pyLookup_foldl_insert_mem {κ ν : Type} [BEq κ] [LawfulBEq κ]
    (L : List κ) (d : List (κ × ν)) (v : ν) (k : κ) (hk : k ∈ L) :
    pyLookup k (L.foldl (fun d x => pyUpdate d x v) d) = some v := by
  induction L generalizing d with
  | nil => cases hk
  | cons a t ih =>
    rw [List.foldl_cons]
    by_cases hkt : k ∈ t
    · exact ih _ hkt
    · have hka : k = a := by
        rcases List.mem_cons.mp hk with h | h
        · exact h
        · exact absurd h hkt
      subst hka
      rw [pyLookup_foldl_insert_not_mem t _ v k hkt]
      exact pyLookup_pyUpdate_self d k v

/-!
`DelimitedStream.ModifiedDictReader.__next__`
(src/tap_universal_file/streams.py lines 160-192).  A produced row is a
Python dict whose keys are either header names or the `DictReader` catch-all
`restkey` (which the tap leaves at its default `None`), and whose values are
either a cell string, `None` (the default `restval`, used to pad missing
trailing columns), or the list of extra cell strings stored under `restkey`.
-/

/-- A key of a decoded delimited row dict: a header field name, or the
catch-all `restkey` (Python `None`). -/
inductive DKey where
  | field (s : String)
  | restkey
deriving DecidableEq, Repr

/-- A value of a decoded delimited row dict: a cell string, the `restval`
padding `None`, or the list of extra cells stored under `restkey`. -/
inductive DVal where
  | cell (s : String)
  | null
  | extras (l : List String)
deriving DecidableEq, Repr

/-- The `RuntimeError` message of `ModifiedDictReader.__next__` on a
column-count mismatch under `delimited_error_handling = "fail"`. -/
def malformedRowMsg (fileName : String) (lineNum lf lr : Nat) : String :=
  s!"Error processing {fileName} at line {lineNum}. Total number of column headers ({lf}) doesn't align with the number of fields in the data ({lr}). To suppress this error, change delimited_error_handling to 'ignore'."

/-- `dict(zip(self.fieldnames, row))`: `zip` truncates to the shorter list and
`dict` applies assignments left to right. -/
def dictOfZip (fieldnames row : List String) : List (DKey × DVal) :=
  (List.zip fieldnames row).foldl
    (fun d kv => pyUpdate d (DKey.field kv.1) (DVal.cell kv.2)) []

/-- Embedding of `ModifiedDictReader.__next__` for one (non-blank) physical
row, given the reader's `fieldnames`, the raw cell list, the configured
`delimited_error_handling`, and the file name and line number used in the
error message.  On a column-count mismatch it raises under the `fail` policy;
otherwise extra cells go under `restkey` (`d[self.restkey] = row[lf:]`) and
missing trailing columns are padded with the `restval` `None`. -/
def modifiedDictReaderNext (fieldnames row : List String)
    (errorHandling fileName : String) (lineNum : Nat) :
    Except String (List (DKey × DVal)) :=
  let d := dictOfZip fieldnames row
  let lf := fieldnames.length
  let lr := row.length
  if lf != lr && errorHandling == "fail" then
    .error (malformedRowMsg fileName lineNum lf lr)
  else if lf < lr then
    .ok (pyUpdate d DKey.restkey (DVal.extras (row.drop lf)))
  else if lf > lr then
    .ok ((fieldnames.drop lr).foldl
      (fun d k => pyUpdate d (DKey.field k) DVal.null) d)
  else
    .ok d

/-- C5: on a delimited data row whose field count differs from the header's,
the `fail` policy raises an error built from the file name and line number,
while the `ignore` policy raises no error and returns the row with every
missing trailing column padded with null and, when the row is longer than the
header, the extra cells collected under the catch-all `restkey`. -/
theorem modifiedDictReaderNext_mismatch
    (fieldnames row : List String) (fileName : String) (lineNum : Nat)
    (hmm : fieldnames.length ≠ row.length) :
    modifiedDictReaderNext fieldnames row "fail" fileName lineNum =
      .error (malformedRowMsg fileName lineNum fieldnames.length row.length) ∧
    ∃ d, modifiedDictReaderNext fieldnames row "ignore" fileName lineNum = .ok d ∧
      (∀ k ∈ fieldnames.drop row.length,
        pyLookup (DKey.field k) d = some DVal.null) ∧
      (fieldnames.length < row.length →
        pyLookup DKey.restkey d = some (DVal.extras (row.drop fieldnames.length))) := by
  have hb : (fieldnames.length != row.length) = true := by
    simpa [bne_iff_ne] using hmm
  constructor
  · simp [modifiedDictReaderNext, hb]
  · rcases Nat.lt_or_ge fieldnames.length row.length with hlt | hge
    · refine ⟨pyUpdate (dictOfZip fieldnames row) DKey.restkey
        (DVal.extras (row.drop fieldnames.length)), ?_, ?_, ?_⟩
      · simp [modifiedDictReaderNext, hb, hlt]
      · intro k hk
        rw [List.drop_eq_nil_of_le (le_of_lt hlt)] at hk
        cases hk
      · intro _
        exact pyLookup_pyUpdate_self _ _ _
    · have hgt : row.length < fieldnames.length := lt_of_le_of_ne hge (Ne.symm hmm)
      refine ⟨(fieldnames.drop row.length).foldl
        (fun d k => pyUpdate d (DKey.field k) DVal.null) (dictOfZip fieldnames row),
        ?_, ?_, ?_⟩
      · simp [modifiedDictReaderNext, hb, hgt, Nat.not_lt_of_gt hgt]
      · intro k hk
        rw [← List.foldl_map DKey.field (fun d x => pyUpdate d x DVal.null)]
        exact pyLookup_foldl_insert_mem _ _ _ _ (List.mem_map_of_mem DKey.field hk)
      · intro hlt
        exact absurd hlt (Nat.not_lt_of_gt hgt)

/-- Witness for C5: the spec scenario, header `[x, y]` and data row
`[1, 2, 3]`. -/
theorem modifiedDictReaderNext_mismatch_witness :
    (["x", "y"].length ≠ ["1", "2", "3"].length) ∧
    (modifiedDictReaderNext ["x", "y"] ["1", "2", "3"] "fail" "cats.csv" 2 =
      .error (malformedRowMsg "cats.csv" 2 ["x", "y"].length ["1", "2", "3"].length) ∧
    ∃ d, modifiedDictReaderNext ["x", "y"] ["1", "2", "3"] "ignore" "cats.csv" 2 =
        .ok d ∧
      (∀ k ∈ ["x", "y"].drop ["1", "2", "3"].length,
        pyLookup (DKey.field k) d = some DVal.null) ∧
      (["x", "y"].length < ["1", "2", "3"].length →
        pyLookup DKey.restkey d =
          some (DVal.extras (["1", "2", "3"].drop ["x", "y"].length)))) :=
  ⟨by decide,
    modifiedDictReaderNext_mismatch ["x", "y"] ["1", "2", "3"] "cats.csv" 2
      (by decide)⟩

/-!
`JSONLStream.get_rows` (src/tap_universal_file/streams.py lines 198-236).
A parsed JSON value is modelled by `PyVal`; the outcome of `json.loads` on a
physical line is modelled as `Except String PyVal`, the `error` carrying the
`JSONDecodeError` text `e`.  The per-row coercion `self._pre_process` (whose
strategy is fixed for the stream) is passed in as a function.  The lazy
generator, which can raise mid-iteration, is collapsed to `Except`: the error
the consumer observes, or the full list of emitted `(row, line_number)`
pairs. -/

/-- A Python/JSON value: null, bool, int, string, list or dict. -/
inductive PyVal where
  | vnull
  | vbool (b : Bool)
  | vint (n : Int)
  | vstr (s : String)
  | vlist (xs : List PyVal)
  | vdict (kvs : List (String × PyVal))

/-- The `RuntimeError` message of `JSONLStream.get_rows` for a line that fails
to parse, under `jsonl_error_handling = "fail"`; `e` is the text of the
`JSONDecodeError`. -/
def jsonlMalformedMsg (fileName : String) (lineNumber : Nat) (e : String) :
    String :=
  s!"Error processing {fileName} at line {lineNumber}. JSONDecodeError was \"{e}\". To suppress this error, change 'jsonl_error_handling' to 'ignore'."

/-- The line loop of `JSONLStream.get_rows` over one file, with `n` physical
lines already consumed (so the next line is number `n + 1`). -/
def jsonlGetRowsGo (policy fileName : String) (preProcess : PyVal → PyVal) :
    Nat → List (Except String PyVal) → Except String (List (PyVal × Nat))
  | _, [] => .ok []
  | n, line :: rest =>
    match line with
    | .error e =>
      if policy == "fail" then .error (jsonlMalformedMsg fileName (n + 1) e)
      else jsonlGetRowsGo policy fileName preProcess (n + 1) rest
    | .ok r =>
      match jsonlGetRowsGo policy fileName preProcess (n + 1) rest with
      | .error msg => .error msg
      | .ok l => .ok ((preProcess r, n + 1) :: l)

/-- Embedding of `JSONLStream.get_rows` for one file: each emitted row is the
pre-processed parsed value paired with its 1-based physical line number. -/
def jsonlGetRows (policy fileName : String) (preProcess : PyVal → PyVal)
    (lines : List (Except String PyVal)) :
    Except String (List (PyVal × Nat)) :=
  jsonlGetRowsGo policy fileName preProcess 0 lines

/-- The valid lines of a JSONL file with their 1-based line numbers, each
pre-processed: what the `ignore` policy emits. -/
def jsonlValidRows (preProcess : PyVal → PyVal)
    (lines : List (Except String PyVal)) : List (PyVal × Nat) :=
  lines.enum.filterMap (fun p =>
    match p.2 with
    | .ok r => some (preProcess r, p.1 + 1)
    | .error _ => none)

lemma jsonlGetRowsGo_ignore (fileName : String) (preProcess : PyVal → PyVal)
    (lines : List (Except String PyVal)) :
    ∀ n, jsonlGetRowsGo "ignore" fileName preProcess n lines =
      .ok ((List.enumFrom n lines).filterMap (fun p =>
        match p.2 with
        | .ok r => some (preProcess r, p.1 + 1)
        | .error _ => none)) := by
  induction lines with
  | nil => intro n; rfl
  | cons line rest ih =>
    intro n
    match line with
    | .error e =>
      rw [jsonlGetRowsGo, ih (n + 1), List.enumFrom_cons]
      rfl
    | .ok r =>
      rw [jsonlGetRowsGo, ih (n + 1), List.enumFrom_cons]
      rfl

lemma jsonlGetRowsGo_fail (fileName : String) (preProcess : PyVal → PyVal)
    (lines : List (Except String PyVal)) (j : Nat) (e : String)
    (hbad : lines.get? j = some (.error e))
    (hfirst : ∀ i < j, ∃ r, lines.get? i = some (.ok r)) :
    ∀ n, jsonlGetRowsGo "fail" fileName preProcess n lines =
      .error (jsonlMalformedMsg fileName (n + j + 1) e) := by
  induction lines generalizing j with
  | nil => cases hbad
  | cons line rest ih =>
    intro n
    match j with
    | 0 =>
      rw [List.get?] at hbad
      have hline : line = .error e := Option.some.inj hbad
      subst hline
      rfl
    | j + 1 =>
      obtain ⟨r, hr⟩ := hfirst 0 (Nat.succ_pos j)
      rw [List.get?] at hr
      have hline : line = .ok r := Option.some.inj hr
      subst hline
      rw [jsonlGetRowsGo,
        ih j (by simpa [List.get?] using hbad)
          (fun i hi => by simpa [List.get?] using hfirst (i + 1) (by omega)) (n + 1)]
      have : n + 1 + j + 1 = n + (j + 1) + 1 := by omega
      rw [this]

/-- C6: on a JSON Lines file whose first unparsable physical line is line
`j + 1` (1-based), the `fail` policy aborts with an error built from the file
name and that 1-based line number, while the `ignore` policy succeeds and
emits exactly the valid lines (pre-processed, with their line numbers),
silently skipping the bad ones. -/
theorem jsonlGetRows_error_handling
    (fileName : String) (preProcess : PyVal → PyVal)
    (lines : List (Except String PyVal)) (j : Nat) (e : String)
    (hbad : lines.get? j = some (.error e))
    (hfirst : ∀ i < j, ∃ r, lines.get? i = some (.ok r)) :
    jsonlGetRows "fail" fileName preProcess lines =
      .error (jsonlMalformedMsg fileName (j + 1) e) ∧
    jsonlGetRows "ignore" fileName preProcess lines =
      .ok (jsonlValidRows preProcess lines) := by
  constructor
  · have := jsonlGetRowsGo_fail fileName preProcess lines j e hbad hfirst 0
    simpa [jsonlGetRows] using this
  · rw [jsonlGetRows, jsonlGetRowsGo_ignore, jsonlValidRows,
      List.enum_eq_enumFrom]

/-- Witness for C6: the spec scenario, a four-line file whose third line
fails to parse. -/
theorem jsonlGetRows_error_handling_witness :
    jsonlGetRows "fail" "employees.jsonl" id
      [.ok (PyVal.vint 1), .ok (PyVal.vint 2), .error "Expecting value",
        .ok (PyVal.vint 4)] =
      .error (jsonlMalformedMsg "employees.jsonl" 3 "Expecting value") ∧
    jsonlGetRows "ignore" "employees.jsonl" id
      [.ok (PyVal.vint 1), .ok (PyVal.vint 2), .error "Expecting value",
        .ok (PyVal.vint 4)] =
      .ok (jsonlValidRows id
        [.ok (PyVal.vint 1), .ok (PyVal.vint 2), .error "Expecting value",
          .ok (PyVal.vint 4)]) :=
  jsonlGetRows_error_handling "employees.jsonl" id
    [.ok (PyVal.vint 1), .ok (PyVal.vint 2), .error "Expecting value",
      .ok (PyVal.vint 4)] 2 "Expecting value" rfl
    (fun i hi =>
      match i, hi with
      | 0, _ => ⟨PyVal.vint 1, rfl⟩
      | 1, _ => ⟨PyVal.vint 2, rfl⟩)

/-!
`DelimitedStream.get_properties` (src/tap_universal_file/streams.py lines
44-65).  The method iterates over the readers of all matched files; each
reader's `fieldnames` is the file's header row (or the configured override),
or Python `None` when the file has no readable header.  The per-file headers
are therefore modelled as `List (Option (List String))`.
-/

/-- The `RuntimeError` message of `DelimitedStream.get_properties` when a
reader has no field names. -/
def headersMissingMsg : String :=
  "Column names could not be read because they don't exist. Try manually specifying them using 'delimited_override_headers'."

/-- The JSON-schema type descriptor assigned to every delimited field:
`{'type': ['null', 'string']}`, modelled by its type array. -/
def nullableStringType : List String := ["null", "string"]

/-- The reader loop of `DelimitedStream.get_properties`, carrying the
`properties` dict built so far. -/
def delimitedGetPropertiesGo (acc : List (String × List String)) :
    List (Option (List String)) → Except String (List (String × List String))
  | [] => .ok acc
  | none :: _ => .error headersMissingMsg
  | some fs :: rest =>
    delimitedGetPropertiesGo
      (fs.foldl (fun a f => pyUpdate a f nullableStringType) acc) rest

/-- Embedding of `DelimitedStream.get_properties`: fold every matched file's
header names into one properties dict, each mapped to the nullable-string
type descriptor. -/
def delimitedGetProperties (headers : List (Option (List String))) :
    Except String (List (String × List String)) :=
  delimitedGetPropertiesGo [] headers

lemma pyLookup_foldl_insert_isSome {κ ν : Type} [BEq κ] [LawfulBEq κ]
    (L : List κ) (d : List (κ × ν)) (v : ν) (k : κ) :
    (pyLookup k (L.foldl (fun a x => pyUpdate a x v) d)).isSome ↔
      k ∈ L ∨ (pyLookup k d).isSome := by
  by_cases hk : k ∈ L
  · simp [pyLookup_foldl_insert_mem L d v k hk, hk]
  · simp [pyLookup_foldl_insert_not_mem L d v k hk, hk]

lemma pyUpdate_values {κ ν : Type} [BEq κ]
    (d : List (κ × ν)) (k : κ) (v : ν) (P : ν → Prop)
    (hP : ∀ kv ∈ d, P kv.2) (hv : P v) :
    ∀ kv ∈ pyUpdate d k v, P kv.2 := by
  intro kv hkv
  unfold pyUpdate at hkv
  by_cases h : d.any (fun p => p.1 == k)
  · rw [if_pos h] at hkv
    obtain ⟨p, hp, hkv⟩ := List.mem_map.mp hkv
    by_cases hpk : (p.1 == k) = true
    · rw [if_pos hpk] at hkv
      rw [← hkv]
      exact hv
    · rw [if_neg hpk] at hkv
      rw [← hkv]
      exact hP p hp
  · rw [if_neg h] at hkv
    rcases List.mem_append.mp hkv with hd | hs
    · exact hP kv hd
    · rw [List.mem_singleton.mp hs]
      exact hv

lemma foldl_insert_values {κ ν : Type} [BEq κ]
    (L : List κ) (d : List (κ × ν)) (v : ν) (P : ν → Prop)
    (hP : ∀ kv ∈ d, P kv.2) (hv : P v) :
    ∀ kv ∈ L.foldl (fun a x => pyUpdate a x v) d, P kv.2 := by
  induction L generalizing d with
  | nil => exact hP
  | cons a t ih =>
    rw [List.foldl_cons]
    exact ih _ (pyUpdate_values d a v P hP hv)

lemma delimitedGetPropertiesGo_ok
    (headers : List (Option (List String)))
    (acc props : List (String × List String))
    (h : delimitedGetPropertiesGo acc headers = .ok props) :
    (∀ k, (pyLookup k props).isSome ↔
      (∃ fs, some fs ∈ headers ∧ k ∈ fs) ∨ (pyLookup k acc).isSome) ∧
    ((∀ kv ∈ acc, kv.2 = nullableStringType) →
      ∀ kv ∈ props, kv.2 = nullableStringType) := by
  induction headers generalizing acc with
  | nil =>
    have hacc : acc = props := by
      simpa [delimitedGetPropertiesGo] using h
    subst hacc
    constructor
    · intro k
      simp
    · intro hv
      exact hv
  | cons hd rest ih =>
    match hd with
    | none => cases h
    | some fs =>
      rw [delimitedGetPropertiesGo] at h
      obtain ⟨hiff, hval⟩ := ih _ h
      constructor
      · intro k
        rw [hiff k, pyLookup_foldl_insert_isSome]
        constructor
        · rintro (⟨fs', hfs', hk⟩ | hk | hacc)
          · exact Or.inl ⟨fs', List.mem_cons_of_mem _ hfs', hk⟩
          · exact Or.inl ⟨fs, List.mem_cons_self _ _, hk⟩
          · exact Or.inr hacc
        · rintro (⟨fs', hfs', hk⟩ | hacc)
          · rcases List.mem_cons.mp hfs' with heq | hmem
            · exact Or.inr (Or.inl (Option.some.inj heq.symm ▸ hk))
            · exact Or.inl ⟨fs', hmem, hk⟩
          · exact Or.inr (Or.inr hacc)
      · intro hv
        exact hval (foldl_insert_values fs acc nullableStringType
          (fun v => v = nullableStringType) hv rfl)

/-- C7: when delimited schema inference succeeds, the inferred field set is
exactly the union of the header names seen across all matched files, and
every field is typed as nullable string. -/
theorem delimitedGetProperties_union_nullable_string
    (headers : List (Option (List String)))
    (props : List (String × List String))
    (h : delimitedGetProperties headers = .ok props) :
    (∀ k, (pyLookup k props).isSome ↔ ∃ fs, some fs ∈ headers ∧ k ∈ fs) ∧
    (∀ kv ∈ props, kv.2 = nullableStringType) := by
  obtain ⟨hiff, hval⟩ := delimitedGetPropertiesGo_ok headers [] props h
  constructor
  · intro k
    rw [hiff k]
    simp [pyLookup]
  · exact hval (by intro kv hkv; cases hkv)

/-- Witness for C7: a single file with header `[a, b, c]` yields exactly the
fields `a`, `b`, `c`, each nullable string. -/
theorem delimitedGetProperties_union_witness :
    (∀ k, (pyLookup k [("a", nullableStringType), ("b", nullableStringType),
        ("c", nullableStringType)]).isSome ↔
      ∃ fs, some fs ∈ [some ["a", "b", "c"]] ∧ k ∈ fs) ∧
    (∀ kv ∈ [("a", nullableStringType), ("b", nullableStringType),
        ("c", nullableStringType)], kv.2 = nullableStringType) :=
  delimitedGetProperties_union_nullable_string [some ["a", "b", "c"]]
    [("a", nullableStringType), ("b", nullableStringType),
      ("c", nullableStringType)] rfl

/-!
`AvroStream._type_convert` and `AvroStream._pre_process`
(src/tap_universal_file/streams.py lines 414-438 and 440-459).  An Avro field
type, as found in the `type` entry of a field of the file's JSON schema, is
either a JSON string (a primitive type name, or a named-type reference) or a
non-string JSON value (a dict for `record`/`enum`/`fixed`/`map`/`array`
definitions, a list for unions).  `_type_convert` first raises on any
non-string value (`type(field_type) != str`), then maps the primitive names,
and raises on any other string.  The second source message really does lack
the closing quote after the interpolation; it is reproduced as written. -/

/-- An Avro field type as read from the schema JSON: a string, or a composite
(non-string) type definition carried here by its display text. -/
inductive AvroFieldType where
  | str (s : String)
  | nonString (descr : String)
deriving DecidableEq, Repr

/-- The `NotImplementedError` message for a non-string Avro field type. -/
def avroTypeNotImplementedMsg (t : String) : String :=
  s!"The field type '{t}' has not been implemented."

/-- The `NotImplementedError` message for an unconverted string Avro field
type (sic: the source omits the closing quote). -/
def avroTypeNotImplementedMsg2 (t : String) : String :=
  s!"The field type '{t} has not been implemented."

/-- The `ValueError` message for an invalid coercion strategy. -/
def coercionStrategyInvalidMsg (strategy : String) : String :=
  s!"The coercion strategy '{strategy}' is not valid."

/-- Embedding of `AvroStream._type_convert`. -/
def avroTypeConvert : AvroFieldType → Except String String
  | .nonString d => .error (avroTypeNotImplementedMsg d)
  | .str s =>
    if s == "null" || s == "boolean" || s == "string" then .ok s
    else if s == "int" || s == "long" then .ok "integer"
    else if s == "float" || s == "double" then .ok "number"
    else if s == "bytes" then .ok "string"
    else .error (avroTypeNotImplementedMsg2 s)

/-- Embedding of `AvroStream._pre_process`: under `convert` a row passes
through unchanged; under `envelope` it is wrapped as `{"record": row}`. -/
def avroPreProcess (strategy : String) (row : PyVal) : Except String PyVal :=
  if strategy == "convert" then .ok row
  else if strategy == "envelope" then .ok (.vdict [("record", row)])
  else .error (coercionStrategyInvalidMsg strategy)

/-- C8: under the `convert` strategy each Avro primitive maps exactly as the
spec lists (`int`/`long` to integer, `float`/`double` to number, `boolean`,
`string`, `null` to themselves, `bytes` to string); every composite type —
whether a non-string schema object or one of the composite type names —
raises an unsupported-type error; and under the `envelope` strategy every row
is wrapped under the single field `record`. -/
theorem avroTypeConvert_spec :
    avroTypeConvert (.str "int") = .ok "integer" ∧
    avroTypeConvert (.str "long") = .ok "integer" ∧
    avroTypeConvert (.str "float") = .ok "number" ∧
    avroTypeConvert (.str "double") = .ok "number" ∧
    avroTypeConvert (.str "boolean") = .ok "boolean" ∧
    avroTypeConvert (.str "string") = .ok "string" ∧
    avroTypeConvert (.str "null") = .ok "null" ∧
    avroTypeConvert (.str "bytes") = .ok "string" ∧
    (∀ s ∈ ["record", "enum", "array", "map", "union", "fixed"],
      avroTypeConvert (.str s) = .error (avroTypeNotImplementedMsg2 s)) ∧
    (∀ d, avroTypeConvert (.nonString d) =
      .error (avroTypeNotImplementedMsg d)) ∧
    (∀ row, avroPreProcess "envelope" row =
      .ok (.vdict [("record", row)])) := by
  refine ⟨rfl, rfl, rfl, rfl, rfl, rfl, rfl, rfl, ?_, fun d => rfl, fun row => rfl⟩
  intro s hs
  simp only [List.mem_cons, List.not_mem_nil, or_false] at hs
  rcases hs with rfl | rfl | rfl | rfl | rfl | rfl <;> rfl

/-- Witness for C8: the spec scenario, a `record`-typed field under `convert`
raises, and `envelope` wraps a row under `record`. -/
theorem avroTypeConvert_spec_witness :
    "record" ∈ ["record", "enum", "array", "map", "union", "fixed"] ∧
    avroTypeConvert (.str "record") =
      .error (avroTypeNotImplementedMsg2 "record") ∧
    avroPreProcess "envelope" PyVal.vnull =
      .ok (.vdict [("record", PyVal.vnull)]) := by
  refine ⟨by decide, ?_, ?_⟩
  · exact avroTypeConvert_spec.2.2.2.2.2.2.2.2.1 "record" (by decide)
  · exact avroTypeConvert_spec.2.2.2.2.2.2.2.2.2.2 PyVal.vnull

/-!
`FileStream.__init__` (src/tap_universal_file/client.py lines 23-65).  The
constructor first derives `starting_replication_key_value`: when state was
passed it must contain a bookmark for the configured `stream_name` (whose
`replication_key_value` becomes the cursor), otherwise the configured
`start_date` (if any) is used; it then raises unless the cursor is absent or
`additional_info` is true.  The bookmarks dict is modelled as an association
list from stream name to that stream's `replication_key_value`; an empty or
missing `tap.state` is `none` (an empty Python dict is falsy). -/

/-- The `RuntimeError` message raised when a cursor is present but
`additional_info` is off. -/
def incrementalMsg : String :=
  "Incremental replication requires additional_info to be True."

/-- The `RuntimeError` message raised when state was passed but holds no
bookmark for the configured stream name. -/
def noBookmarkMsg (streamName : String) : String :=
  s!"State was passed so incremental replication is assumed. However, no state was found for a stream_name of {streamName}."

/-- The first half of `FileStream.__init__`: derive
`starting_replication_key_value` from state bookmarks or `start_date`. -/
def deriveStartingReplicationKeyValue
    (bookmarks : Option (List (String × String))) (streamName : String)
    (startDate : Option String) : Except String (Option String) :=
  match bookmarks with
  | some bm =>
    match pyLookup streamName bm with
    | none => .error (noBookmarkMsg streamName)
    | some v => .ok (some v)
  | none => .ok startDate

/-- Embedding of the replication checks of `FileStream.__init__`: the derived
cursor, then the guard
`if not (starting_replication_key_value is None or additional_info)`. -/
def fileStreamInitCheck (bookmarks : Option (List (String × String)))
    (streamName : String) (startDate : Option String)
    (additionalInfo : Bool) : Except String (Option String) :=
  match deriveStartingReplicationKeyValue bookmarks streamName startDate with
  | .error e => .error e
  | .ok srkv =>
    if !(srkv.isNone || additionalInfo) then .error incrementalMsg
    else .ok srkv

/-- C9: whenever a starting replication cursor is derived (from a stream
bookmark in state, or from `start_date`) and `additional_info` is false,
stream construction fails with the incremental-replication error; when no
cursor is present or `additional_info` is true, the check passes and
construction succeeds with the derived cursor. -/
theorem fileStreamInitCheck_requires_additional_info
    (bookmarks : Option (List (String × String))) (streamName : String)
    (startDate : Option String) (srkv : Option String)
    (h : deriveStartingReplicationKeyValue bookmarks streamName startDate =
      .ok srkv) :
    ((∃ v, srkv = some v) →
      fileStreamInitCheck bookmarks streamName startDate false =
        .error incrementalMsg) ∧
    (∀ additionalInfo : Bool, srkv = none ∨ additionalInfo = true →
      fileStreamInitCheck bookmarks streamName startDate additionalInfo =
        .ok srkv) := by
  constructor
  · rintro ⟨v, rfl⟩
    rw [fileStreamInitCheck, h]
    rfl
  · rintro ai (rfl | rfl)
    · rw [fileStreamInitCheck, h]
      rfl
    · rw [fileStreamInitCheck, h]
      cases srkv <;> rfl

/-- Witness for C9: a bookmark for stream `s1` is present; with
`additional_info` off construction fails, with it on construction passes. -/
theorem fileStreamInitCheck_witness :
    fileStreamInitCheck (some [("s1", "2023-01-01T00:00:00+00:00")]) "s1"
      none false = .error incrementalMsg ∧
    fileStreamInitCheck (some [("s1", "2023-01-01T00:00:00+00:00")]) "s1"
      none true = .ok (some "2023-01-01T00:00:00+00:00") :=
  ⟨(fileStreamInitCheck_requires_additional_info
      (some [("s1", "2023-01-01T00:00:00+00:00")]) "s1" none
      (some "2023-01-01T00:00:00+00:00") rfl).1 ⟨_, rfl⟩,
    (fileStreamInitCheck_requires_additional_info
      (some [("s1", "2023-01-01T00:00:00+00:00")]) "s1" none
      (some "2023-01-01T00:00:00+00:00") rfl).2 true (Or.inr rfl)⟩

/-!
`DelimitedStream._skip_rows` (src/tap_universal_file/streams.py lines
114-138).  The method materializes the file's lines, pops
`delimited_header_skip` lines from the front and `delimited_footer_skip`
lines from the back, and returns `[]` when a pop hits an empty list (the
`IndexError` is caught).  The pops are modelled by `popFrontN`/`popBackN`
returning `none` exactly when `list.pop` would raise. -/

/-- `file_list.pop(0)` iterated `n` times: `none` models the `IndexError`. -/
def popFrontN : Nat → List String → Option (List String)
  | 0, l => some l
  | _ + 1, [] => none
  | n + 1, _ :: t => popFrontN n t

/-- `file_list.pop()` iterated `n` times: `none` models the `IndexError`. -/
def popBackN : Nat → List String → Option (List String)
  | 0, l => some l
  | n + 1, l => if l.isEmpty then none else popBackN n l.dropLast

/-- Embedding of `DelimitedStream._skip_rows`: header pops, then footer pops,
with the `IndexError` handler turning any failed pop into `[]`. -/
def skip_rows (fileList : List String) (headerSkip footerSkip : Nat) :
    List String :=
  match popFrontN headerSkip fileList with
  | none => []
  | some l1 =>
    match popBackN footerSkip l1 with
    | none => []
    | some l2 => l2

lemma popFrontN_none (n : Nat) (l : List String) (h : l.length < n) :
    popFrontN n l = none := by
  induction n generalizing l with
  | zero => omega
  | succ n ih =>
    match l with
    | [] => rfl
    | a :: t =>
      rw [popFrontN]
      exact ih t (by simpa using Nat.lt_of_succ_lt_succ h)

lemma popFrontN_some (n : Nat) (l : List String) (h : n ≤ l.length) :
    popFrontN n l = some (l.drop n) := by
  induction n generalizing l with
  | zero => rfl
  | succ n ih =>
    match l with
    | [] => simp at h
    | a :: t =>
      rw [popFrontN, List.drop_succ_cons]
      exact ih t (by simpa using h)

lemma popBackN_none (n : Nat) (l : List String) (h : l.length < n) :
    popBackN n l = none := by
  induction n generalizing l with
  | zero => omega
  | succ n ih =>
    by_cases he : l.isEmpty
    · rw [popBackN, if_pos he]
    · rw [popBackN, if_neg he]
      apply ih
      have hne : l ≠ [] := by simpa [List.isEmpty_iff] using he
      have := List.length_dropLast l
      have hpos : 0 < l.length := List.length_pos.mpr hne
      omega

/-- C10: a delimited file with fewer physical rows than the configured header
skip plus footer skip yields the empty row list from `_skip_rows`, without
raising (the `IndexError` hit by the failing pop is caught and turned into
`[]`). -/
theorem skip_rows_short_file (l : List String) (headerSkip footerSkip : Nat)
    (hlen : l.length < headerSkip + footerSkip) :
    skip_rows l headerSkip footerSkip = [] := by
  by_cases hh : headerSkip ≤ l.length
  · have hd : (l.drop headerSkip).length < footerSkip := by
      rw [List.length_drop]
      omega
    simp [skip_rows, popFrontN_some headerSkip l hh,
      popBackN_none footerSkip (l.drop headerSkip) hd]
  · simp [skip_rows, popFrontN_none headerSkip l (by omega)]

/-- Witness for C10: one physical row, one header row and one footer row to
skip. -/
theorem skip_rows_short_file_witness :
    (["only row"] : List String).length < 1 + 1 ∧
      skip_rows ["only row"] 1 1 = [] :=
  ⟨by decide, skip_rows_short_file ["only row"] 1 1 (by decide)⟩

/-!
Construction order of `FileStream.__init__` (src/tap_universal_file/client.py
lines 23-65).  The constructor (1) derives
`starting_replication_key_value` (lines 37-50), (2) runs `super().__init__`
(line 52), during which schema discovery uses that derived cursor to list and
open the matched files — the comment at lines 34-36 states the cursor must
exist first "so that state can be used during the discovery process", and
discovery runs `get_properties` → `_get_readers` → `get_files` → `open` —
and only then (3) applies the `additional_info` guard (lines 54-61).
`fileStreamInitTrace` models this order: its first component is the list of
file names read before construction finished or failed.  `parseCursor`
abstracts `datetime.strptime` into the integer-timestamp model used by
`get_files`. -/

/-- Ordered embedding of `FileStream.__init__`: cursor derivation, then the
schema-discovery file reads of `super().__init__`, then the
`additional_info` guard; paired with the names of the files read. -/
def fileStreamInitTrace (parseCursor : String → Int)
    (bookmarks : Option (List (String × String))) (streamName : String)
    (startDate : Option String) (additionalInfo : Bool)
    (nameMatches : Option (String → Bool)) (listing : List FileInfo) :
    List String × Except String (Option String) :=
  match deriveStartingReplicationKeyValue bookmarks streamName startDate with
  | .error e => ([], .error e)
  | .ok srkv =>
    match get_files nameMatches (srkv.map parseCursor) listing with
    | .error e => ([], .error e)
    | .ok (files, _) =>
      (files.map (fun f => f.name),
        if !(srkv.isNone || additionalInfo) then .error incrementalMsg
        else .ok srkv)

/-- C9 counterexample.  With a bookmark cursor present and `additional_info`
false, construction does fail with the incremental-replication error, but not
before a file is read: schema discovery inside `super().__init__` has already
opened the matched file `data.csv`, so the read list at the failure is
non-empty, refuting "fails with an error before any file is read". -/
theorem fileStreamInit_reads_file_before_failing :
    fileStreamInitTrace (fun _ => 0)
      (some [("s1", "2023-01-01T00:00:00+00:00")]) "s1" none false none
      [FileInfo.mk "data.csv" "file" 5 1] =
      (["data.csv"], .error incrementalMsg) ∧
    (["data.csv"] : List String) ≠ [] := by
  constructor
  · simp [fileStreamInitTrace, deriveStartingReplicationKeyValue, pyLookup,
      get_files, preFilter, keepsPreFilter, sortByLastModified,
      List.mergeSort, cursorFilter, passesCursor]
  · decide

/-- C9, amended: whenever a starting replication cursor is derived (from a
stream bookmark in state, or from `start_date`) and `additional_info` is
false, stream construction fails with the incremental-replication error —
raised only after `super().__init__`, so the files selected during schema
discovery have already been read; when no cursor is present or
`additional_info` is true, the guard passes and construction succeeds with
the derived cursor (after the same discovery reads). -/
theorem fileStreamInitTrace_requires_additional_info
    (parseCursor : String → Int)
    (bookmarks : Option (List (String × String))) (streamName : String)
    (startDate : Option String) (srkv : Option String)
    (nameMatches : Option (String → Bool)) (listing files : List FileInfo)
    (w : Bool)
    (h : deriveStartingReplicationKeyValue bookmarks streamName startDate =
      .ok srkv)
    (hsel : get_files nameMatches (srkv.map parseCursor) listing =
      .ok (files, w)) :
    ((∃ v, srkv = some v) →
      fileStreamInitTrace parseCursor bookmarks streamName startDate false
          nameMatches listing =
        (files.map (fun f => f.name), .error incrementalMsg)) ∧
    (∀ additionalInfo : Bool, srkv = none ∨ additionalInfo = true →
      fileStreamInitTrace parseCursor bookmarks streamName startDate
          additionalInfo nameMatches listing =
        (files.map (fun f => f.name), .ok srkv)) := by
  constructor
  · rintro ⟨v, rfl⟩
    simp only [Option.map_some'] at hsel
    simp [fileStreamInitTrace, h, hsel]
  · rintro ai (rfl | rfl)
    · simp only [Option.map_none'] at hsel
      simp [fileStreamInitTrace, h, hsel]
    · simp [fileStreamInitTrace, h, hsel]

/-- Witness for the amended C9 theorem: a bookmark for stream `s1` and one
matched file; with `additional_info` off construction fails after reading the
file, with it on construction passes. -/
theorem fileStreamInitTrace_witness :
    fileStreamInitTrace (fun _ => 0)
      (some [("s1", "2023-01-01T00:00:00+00:00")]) "s1" none false none
      [FileInfo.mk "data.csv" "file" 5 1] =
      (["data.csv"], .error incrementalMsg) ∧
    fileStreamInitTrace (fun _ => 0)
      (some [("s1", "2023-01-01T00:00:00+00:00")]) "s1" none true none
      [FileInfo.mk "data.csv" "file" 5 1] =
      (["data.csv"], .ok (some "2023-01-01T00:00:00+00:00")) := by
  have hsel : get_files none
      ((some "2023-01-01T00:00:00+00:00").map (fun _ => (0 : Int)))
      [FileInfo.mk "data.csv" "file" 5 1] =
      .ok ([FileInfo.mk "data.csv" "file" 5 1], false) := by
    simp [get_files, preFilter, keepsPreFilter, sortByLastModified,
      List.mergeSort, cursorFilter, passesCursor]
  constructor
  · exact (fileStreamInitTrace_requires_additional_info (fun _ => 0)
      (some [("s1", "2023-01-01T00:00:00+00:00")]) "s1" none
      (some "2023-01-01T00:00:00+00:00") none
      [FileInfo.mk "data.csv" "file" 5 1]
      [FileInfo.mk "data.csv" "file" 5 1] false rfl hsel).1 ⟨_, rfl⟩
  · exact (fileStreamInitTrace_requires_additional_info (fun _ => 0)
      (some [("s1", "2023-01-01T00:00:00+00:00")]) "s1" none
      (some "2023-01-01T00:00:00+00:00") none
      [FileInfo.mk "data.csv" "file" 5 1]
      [FileInfo.mk "data.csv" "file" 5 1] false rfl hsel).2 true (Or.inr rfl)
